import Mathlib

/-!
Verification of the rados-reference-tracker protocol engine.

The development shallowly embeds the current revision of the engine
(src/unnamed/part_004: `rt_add`, `rt_remove`, `init_v1`, `add_v1`,
`remove_v1`, `read_rt_version`/`read_v1`) and the CLI tokenizer
(src/main.c: `tokenize`).

Modelling choices:
* The backing RADOS store holds at most one tracker object per name; we model
  the state for one name as `Option RTObject`.  An `RTObject` carries the
  schema version stored in the xattr (`ver`), the uint32 payload refcount
  (`refcount`, kept below 2^32 by taking `% 2^32` at every write, exactly
  where the C code's uint32 arithmetic wraps), the OMap key set (`keySet`,
  a `Finset String`, since the OMap deduplicates keys), and the RADOS
  per-object version number (`gen`), which the engine uses as its CAS token.
* Each engine call makes two round trips: a probe (read of the version xattr
  plus `rados_get_last_version`) and a write transaction.  To express the
  optimistic concurrency faithfully, `rt_add`/`rt_remove` take the store
  state at probe time (`sP`) and at write time (`sW`) as two parameters;
  a sequential (interference-free) call instantiates both with the same
  state.  `rados_write_op_assert_version` fails with -ERANGE when the write
  time version differs from the probed one; `LIBRADOS_CREATE_EXCLUSIVE`
  fails with -EEXIST when the object exists at write time.
* Error returns mirror the C `int` convention: negative errno on failure,
  zero (or a non-negative byte count, for the codec) on success.
-/

/-- Errno value for a missing object, returned negated by librados. -/
def ENOENT : Int := 2

/-- Errno value for an exclusive create hitting an existing object. -/
def EEXIST : Int := 17

/-- Errno value reported when a version assertion fails in a rados op. -/
def ERANGE : Int := 34

/-- Modulus of the C uint32 type: RT_V1_REFCOUNT_T arithmetic wraps mod 2^32. -/
def u32Mod : Nat := 4294967296

/-- Wrapping uint32 addition, as in refcount += keys_to_add_count (part_004
line 375); both operands below 2^32 in every reachable state. -/
def add32 (a b : Nat) : Nat := (a + b) % u32Mod

/-- Wrapping uint32 subtraction, as in refcount -= keys_to_remove_count
(part_004 line 496): for a < 2^32 this is exactly C's uint32 a - b. -/
def sub32 (a b : Nat) : Nat := (a + (u32Mod - b % u32Mod)) % u32Mod

/-- One tracker RADOS object as the engine observes it: the schema version
xattr, the uint32 payload refcount, the OMap key set and the store-maintained
object version used as the CAS token. -/
structure RTObject where
  ver : Nat
  refcount : Nat
  keySet : Finset String
  gen : Nat
deriving DecidableEq

/-- Result of one engine call: the C return code, the output flag
(rt_created for rt_add, rt_deleted for rt_remove) and the store state
after the call. -/
structure RTResult where
  ret : Int
  flag : Bool
  store : Option RTObject
deriving DecidableEq

/-- Embeds init_v1 (part_004 lines 232-297).  The write op uses
LIBRADOS_CREATE_EXCLUSIVE, so it fails with -EEXIST if the object exists at
write time.  On success it sets the version xattr to 1, writes the payload
refcount as htonl(keys_count) (line 253: the raw batch length, duplicates
included), and sets every requested key in the OMap (where duplicates
collapse, the OMap being a map).  The fresh object gets a first store
version, modelled as 1. -/
def init_v1 (sW : Option RTObject) (keys : List String) : Int × Option RTObject :=
  match sW with
  | some _ => (-EEXIST, sW)
  | none => (0, some ⟨1, keys.length % u32Mod, keys.toFinset, 1⟩)

/-- Embeds add_v1 (part_004 lines 299-422).  `gen` is the object version
observed at probe time; both the read (read_v1, line 591) and the write
(line 387) assert it, failing with -ERANGE if the object changed.  The keys
to add are the requested occurrences whose key is not in the OMap (lines
322-327, counted with multiplicity); if there are none, no write op is
issued (lines 334-340).  Otherwise the refcount grows by that count
(line 375) and the keys are inserted into the OMap. -/
def add_v1 (sW : Option RTObject) (gen : Nat) (keys : List String) :
    Int × Option RTObject :=
  match sW with
  | none => (-ENOENT, none)
  | some o =>
    if o.gen = gen then
      let toAdd := keys.filter fun k => decide (k ∉ o.keySet)
      if toAdd.length = 0 then (0, some o)
      else (0, some { o with
        refcount := add32 o.refcount toAdd.length,
        keySet := o.keySet ∪ toAdd.toFinset,
        gen := o.gen + 1 })
    else (-ERANGE, some o)

/-- Embeds remove_v1 (part_004 lines 424-556).  The keys to remove are the
requested occurrences whose key is present in the OMap (lines 448-453,
counted with multiplicity); if there are none, no write op is issued and
rt_removed stays 0 (lines 458-465).  Otherwise the new refcount is the
uint32 difference (line 496); if it is zero the whole object is removed and
rt_removed is set (lines 509-518), else the payload is rewritten and the
keys deleted from the OMap (lines 519-526). -/
def remove_v1 (sW : Option RTObject) (gen : Nat) (keys : List String) : RTResult :=
  match sW with
  | none => ⟨-ENOENT, false, none⟩
  | some o =>
    if o.gen = gen then
      let toRemove := keys.filter fun k => decide (k ∈ o.keySet)
      if toRemove.length = 0 then ⟨0, false, some o⟩
      else
        if sub32 o.refcount toRemove.length = 0 then ⟨0, true, none⟩
        else ⟨0, false, some { o with
          refcount := sub32 o.refcount toRemove.length,
          keySet := o.keySet \ toRemove.toFinset,
          gen := o.gen + 1 }⟩
    else ⟨-ERANGE, false, some o⟩

/-- Embeds rt_add (part_004 lines 63-134).  The probe reads the version
xattr from the probe-time state `sP`; on -ENOENT it calls init_v1 against
the write-time state and sets created = 1 regardless of init_v1's return
(lines 93-94).  On version 1 it dispatches to add_v1 with the probed object
version as CAS token (lines 106, 112-114); any other version returns -1
without a write (lines 116-122). -/
def rt_add (sP sW : Option RTObject) (keys : List String) : RTResult :=
  match sP with
  | none =>
    let r := init_v1 sW keys
    ⟨r.1, true, r.2⟩
  | some o =>
    if o.ver = 1 then
      let r := add_v1 sW o.gen keys
      ⟨r.1, false, r.2⟩
    else ⟨-1, false, sW⟩

/-- Embeds rt_remove (part_004 lines 139-210).  On -ENOENT from the probe
the object is assumed already deleted: success with deleted = 1 and no write
(lines 161-171).  On version 1 it dispatches to remove_v1 with the probed
object version as CAS token (lines 182, 188-190); any other version returns
-1 without a write (lines 192-198). -/
def rt_remove (sP sW : Option RTObject) (keys : List String) : RTResult :=
  match sP with
  | none => ⟨0, true, sW⟩
  | some o =>
    if o.ver = 1 then remove_v1 sW o.gen keys
    else ⟨-1, false, sW⟩

/-- Big-endian decoding of the first four bytes of a buffer: the ntohl of
the uint32 fetched by memcpy in read_rt_version / read_v1.  Bytes are
reduced mod 256. -/
def be32 (bs : List Nat) : Nat :=
  (bs.take 4).foldl (fun acc b => acc * 256 + b % 256) 0

/-- Embeds the decoding done by read_rt_version (part_004 lines 212-230).
rados_getxattr copies at most 4 bytes of the stored xattr into the stack
buffer and returns the copied length, or -ERANGE if the xattr is larger
than the buffer.  The C code treats any non-negative return as success and
decodes the full 4-byte stack buffer, of which only the first `len` bytes
were written; `garbage` stands for the remaining uninitialized bytes. -/
def read_rt_version_decode (xattrBytes garbage : List Nat) : Int × Nat :=
  if 4 < xattrBytes.length then (-ERANGE, 0)
  else (Int.ofNat xattrBytes.length, be32 (xattrBytes.take 4 ++ garbage))

/-- Embeds the payload decoding of read_v1 (part_004 lines 588-603 and
653-656).  rados_read_op_read reads min(4, payload length) bytes into the
stack buffer and the op succeeds even for a shorter object; the C code
never checks read_bytes or read_rval, and decodes the whole 4-byte buffer,
with `garbage` standing for the uninitialized remainder. -/
def read_v1_decode (payload garbage : List Nat) : Int × Nat :=
  (0, be32 (payload.take 4 ++ garbage))

/-- C1: the spec invariant refcount = |key_set| fails on the code.  A first
Add with the duplicated batch [x, x] succeeds and persists refcount = 2
while the OMap holds the single key x, so the persisted refcount differs
from the cardinality of the key set. -/
theorem rt_add_breaks_refcount_card :
    rt_add none none ["x", "x"] = ⟨0, true, some ⟨1, 2, {"x"}, 1⟩⟩ ∧
    (2 : Nat) ≠ ({"x"} : Finset String).card := by
  constructor
  · decide
  · decide

/-- C2: Add on a non-existent tracker with batch [x, x, y] creates the
object with schema version 1 and key_set = {x, y} of cardinality 2, but
writes refcount = 3 (the raw batch length), not the unique count 2 claimed
by the spec. -/
theorem init_v1_no_dedup :
    rt_add none none ["x", "x", "y"] = ⟨0, true, some ⟨1, 3, {"x", "y"}, 1⟩⟩ ∧
    ({"x", "y"} : Finset String).card = 2 := by
  constructor
  · decide
  · decide

/-- C3: the refcount subtraction in remove_v1 wraps.  From refcount = 1,
key_set = {z}, Remove with the duplicated batch [z, z] counts the present
key twice, computes 1 - 2 in uint32 arithmetic and writes
refcount = 2^32 - 1 with an empty key set instead of never going below
zero. -/
theorem remove_v1_refcount_wraps :
    rt_remove (some ⟨1, 1, {"z"}, 7⟩) (some ⟨1, 1, {"z"}, 7⟩) ["z", "z"] =
      ⟨0, false, some ⟨1, 4294967295, ∅, 8⟩⟩ ∧
    (4294967295 : Nat) = u32Mod - 1 := by
  constructor
  · decide
  · decide

/-- C5: rt_add reports created = 1 even when its exclusive create fails.
When the probe sees no object but another writer creates it before the
write round trip, init_v1 returns -EEXIST, yet rt_add returns that error
with the rt_created output still set (part_004 lines 93-94 set created = 1
without checking init_v1's return). -/
theorem rt_add_created_on_failed_create :
    rt_add none (some ⟨1, 1, {"a"}, 1⟩) ["b"] = ⟨-EEXIST, true, some ⟨1, 1, {"a"}, 1⟩⟩ ∧
    (-EEXIST : Int) < 0 := by
  constructor
  · decide
  · decide

/-- C8: neither decoder validates the stored byte length.  A zero-byte
payload decodes with success return 0 for every uninitialized-buffer
content, and a 2-byte version xattr yields the non-negative return 2, which
the caller's `ret < 0` check treats as success; only a well-formed 4-byte
payload is also shown decoding to its big-endian value. -/
theorem decode_accepts_short_buffers (garbage : List Nat) :
    (read_v1_decode [] garbage).1 = 0 ∧
    (read_rt_version_decode [0, 0] garbage).1 = 2 ∧
    ¬(read_rt_version_decode [0, 0] garbage).1 < 0 ∧
    read_v1_decode [0, 0, 0, 5] garbage = (0, 5) := by
  refine ⟨rfl, rfl, ?_, rfl⟩
  have h : (read_rt_version_decode [0, 0] garbage).1 = 2 := rfl
  rw [h]
  decide

/-- Requested keys all present already: add_v1 finds nothing to add and
issues no write op, so the call is a no-op success. -/
lemma rt_add_all_present (o : RTObject) (keys : List String)
    (hv : o.ver = 1) (hk : ∀ k ∈ keys, k ∈ o.keySet) :
    rt_add (some o) (some o) keys = ⟨0, false, some o⟩ := by
  simp [rt_add, add_v1, hv]
  rw [if_pos hk]
  exact ⟨rfl, rfl⟩

/-- Requested keys all absent: remove_v1 finds nothing to remove and issues
no write op, reporting deleted = false. -/
lemma rt_remove_none_present (o : RTObject) (keys : List String)
    (hv : o.ver = 1) (hk : ∀ k ∈ keys, k ∉ o.keySet) :
    rt_remove (some o) (some o) keys = ⟨0, false, some o⟩ := by
  simp [rt_remove, remove_v1, hv]
  intro x hx hmem
  exact absurd hmem (hk x hx)

/-- Unfolds add_v1 for a sequential call, where the CAS token passed is the
object version just probed, so the version assertion holds. -/
lemma add_v1_eq (o : RTObject) (keys : List String) :
    add_v1 (some o) o.gen keys =
      if (keys.filter fun k => decide (k ∉ o.keySet)).length = 0 then (0, some o)
      else (0, some { o with
        refcount := add32 o.refcount (keys.filter fun k => decide (k ∉ o.keySet)).length,
        keySet := o.keySet ∪ (keys.filter fun k => decide (k ∉ o.keySet)).toFinset,
        gen := o.gen + 1 }) := by
  have e : add_v1 (some o) o.gen keys =
      if o.gen = o.gen then
        if (keys.filter fun k => decide (k ∉ o.keySet)).length = 0 then (0, some o)
        else (0, some { o with
          refcount := add32 o.refcount (keys.filter fun k => decide (k ∉ o.keySet)).length,
          keySet := o.keySet ∪ (keys.filter fun k => decide (k ∉ o.keySet)).toFinset,
          gen := o.gen + 1 })
      else (-ERANGE, some o) := rfl
  rw [e, if_pos rfl]

/-- Unfolds a sequential rt_add call on an existing schema-1 object into its
two outcomes: nothing to add (no write) or one CAS write. -/
lemma rt_add_v1_char (o : RTObject) (keys : List String) (hv : o.ver = 1) :
    rt_add (some o) (some o) keys =
      if (keys.filter fun k => decide (k ∉ o.keySet)).length = 0 then ⟨0, false, some o⟩
      else ⟨0, false, some { o with
        refcount := add32 o.refcount (keys.filter fun k => decide (k ∉ o.keySet)).length,
        keySet := o.keySet ∪ (keys.filter fun k => decide (k ∉ o.keySet)).toFinset,
        gen := o.gen + 1 }⟩ := by
  have e : rt_add (some o) (some o) keys =
      if o.ver = 1 then
        ⟨(add_v1 (some o) o.gen keys).1, false, (add_v1 (some o) o.gen keys).2⟩
      else ⟨-1, false, some o⟩ := rfl
  rw [e, if_pos hv, add_v1_eq]
  by_cases h : (keys.filter fun k => decide (k ∉ o.keySet)).length = 0
  · simp only [if_pos h]
  · simp only [if_neg h]

/-- Unfolds remove_v1 for a sequential call, where the CAS token passed is
the object version just probed, so the version assertion holds. -/
lemma remove_v1_eq (o : RTObject) (keys : List String) :
    remove_v1 (some o) o.gen keys =
      if (keys.filter fun k => decide (k ∈ o.keySet)).length = 0 then ⟨0, false, some o⟩
      else if sub32 o.refcount (keys.filter fun k => decide (k ∈ o.keySet)).length = 0 then
        ⟨0, true, none⟩
      else ⟨0, false, some { o with
        refcount := sub32 o.refcount (keys.filter fun k => decide (k ∈ o.keySet)).length,
        keySet := o.keySet \ (keys.filter fun k => decide (k ∈ o.keySet)).toFinset,
        gen := o.gen + 1 }⟩ := by
  have e : remove_v1 (some o) o.gen keys =
      if o.gen = o.gen then
        if (keys.filter fun k => decide (k ∈ o.keySet)).length = 0 then ⟨0, false, some o⟩
        else if sub32 o.refcount (keys.filter fun k => decide (k ∈ o.keySet)).length = 0 then
          ⟨0, true, none⟩
        else ⟨0, false, some { o with
          refcount := sub32 o.refcount (keys.filter fun k => decide (k ∈ o.keySet)).length,
          keySet := o.keySet \ (keys.filter fun k => decide (k ∈ o.keySet)).toFinset,
          gen := o.gen + 1 }⟩
      else ⟨-ERANGE, false, some o⟩ := rfl
  rw [e, if_pos rfl]

/-- Unfolds a sequential rt_remove call on an existing schema-1 object with a
non-empty delta of present keys into its two write outcomes. -/
lemma rt_remove_v1_char (o : RTObject) (keys : List String) (hv : o.ver = 1)
    (hl : (keys.filter fun k => decide (k ∈ o.keySet)) ≠ []) :
    rt_remove (some o) (some o) keys =
      if sub32 o.refcount (keys.filter fun k => decide (k ∈ o.keySet)).length = 0 then
        ⟨0, true, none⟩
      else ⟨0, false, some { o with
        refcount := sub32 o.refcount (keys.filter fun k => decide (k ∈ o.keySet)).length,
        keySet := o.keySet \ (keys.filter fun k => decide (k ∈ o.keySet)).toFinset,
        gen := o.gen + 1 }⟩ := by
  have e : rt_remove (some o) (some o) keys =
      if o.ver = 1 then remove_v1 (some o) o.gen keys else ⟨-1, false, some o⟩ := rfl
  rw [e, if_pos hv, remove_v1_eq, if_neg (fun hc => hl (List.length_eq_zero.mp hc))]

/-- When the probed schema version is not 1, rt_add hits the default branch
of the version switch: error -1, no write, rt_created left 0. -/
lemma rt_add_unknown_ver (o : RTObject) (keys : List String) (hv : o.ver ≠ 1) :
    rt_add (some o) (some o) keys = ⟨-1, false, some o⟩ := by
  have e : rt_add (some o) (some o) keys =
      if o.ver = 1 then
        ⟨(add_v1 (some o) o.gen keys).1, false, (add_v1 (some o) o.gen keys).2⟩
      else ⟨-1, false, some o⟩ := rfl
  rw [e, if_neg hv]

/-- When the probed schema version is not 1, rt_remove hits the default
branch of the version switch: error -1, no write, rt_deleted left 0. -/
lemma rt_remove_unknown_ver (o : RTObject) (keys : List String) (hv : o.ver ≠ 1) :
    rt_remove (some o) (some o) keys = ⟨-1, false, some o⟩ := by
  have e : rt_remove (some o) (some o) keys =
      if o.ver = 1 then remove_v1 (some o) o.gen keys else ⟨-1, false, some o⟩ := rfl
  rw [e, if_neg hv]

/-- C9: on an object whose stored schema version is not 1, both rt_add and
rt_remove return the error -1 from the default branch of the version switch
and issue no write transaction, leaving the object unchanged (and neither
output flag set). -/
theorem unsupported_version_no_write (o : RTObject) (keys : List String)
    (hv : o.ver ≠ 1) :
    rt_add (some o) (some o) keys = ⟨-1, false, some o⟩ ∧
    rt_remove (some o) (some o) keys = ⟨-1, false, some o⟩ :=
  ⟨rt_add_unknown_ver o keys hv, rt_remove_unknown_ver o keys hv⟩

/-- Witness for C9 at schema version 2 with one key. -/
theorem unsupported_version_no_write_witness :
    rt_add (some ⟨2, 1, {"a"}, 1⟩) (some ⟨2, 1, {"a"}, 1⟩) ["a"] =
        ⟨-1, false, some ⟨2, 1, {"a"}, 1⟩⟩ ∧
    rt_remove (some ⟨2, 1, {"a"}, 1⟩) (some ⟨2, 1, {"a"}, 1⟩) ["a"] =
        ⟨-1, false, some ⟨2, 1, {"a"}, 1⟩⟩ :=
  unsupported_version_no_write ⟨2, 1, {"a"}, 1⟩ ["a"] (by decide)

/-- C4: a Remove on an existing schema-1 object whose delta of present keys
is non-empty either deletes the whole object (when the new count is zero)
reporting deleted = true in that branch and in that branch only, or removes
exactly the delta keys from the key set and writes the new refcount,
reporting deleted = false; `sub32 refcount delta.length` is the new count
the code computes and writes. -/
theorem remove_v1_delete_branch (o : RTObject) (keys : List String)
    (hv : o.ver = 1)
    (hd : (keys.filter fun k => decide (k ∈ o.keySet)) ≠ []) :
    ((rt_remove (some o) (some o) keys).flag = true ↔
        sub32 o.refcount (keys.filter fun k => decide (k ∈ o.keySet)).length = 0) ∧
    (sub32 o.refcount (keys.filter fun k => decide (k ∈ o.keySet)).length = 0 →
      rt_remove (some o) (some o) keys = ⟨0, true, none⟩) ∧
    (sub32 o.refcount (keys.filter fun k => decide (k ∈ o.keySet)).length ≠ 0 →
      rt_remove (some o) (some o) keys = ⟨0, false, some { o with
        refcount := sub32 o.refcount (keys.filter fun k => decide (k ∈ o.keySet)).length,
        keySet := o.keySet \ (keys.filter fun k => decide (k ∈ o.keySet)).toFinset,
        gen := o.gen + 1 }⟩) := by
  rw [rt_remove_v1_char o keys hv hd]
  by_cases hz : sub32 o.refcount (keys.filter fun k => decide (k ∈ o.keySet)).length = 0
  · simp [hz]
  · simp [hz]

/-- Witness for C4: from refcount = 2, key_set = {a, b}, removing [a] takes
the positive-count branch, writing refcount 1 and key_set {b} with
deleted = false. -/
theorem remove_v1_delete_branch_witness :
    rt_remove (some ⟨1, 2, {"a", "b"}, 3⟩) (some ⟨1, 2, {"a", "b"}, 3⟩) ["a"] =
      ⟨0, false, some ⟨1, 1, {"b"}, 4⟩⟩ := by
  have h :=
    (remove_v1_delete_branch ⟨1, 2, {"a", "b"}, 3⟩ ["a"] rfl (by decide)).2.2 (by decide)
  rw [h]
  decide

/-- C6: Add is idempotent.  On an existing schema-1 object whose key set
already contains every requested key (empty delta), a sequential rt_add
issues no write transaction and succeeds with created = false; consequently
a successful Add followed by the same Add leaves refcount and key_set
unchanged after the second call. -/
theorem rt_add_idempotent (s : Option RTObject) (keys : List String) :
    (∀ o : RTObject, s = some o → o.ver = 1 → (∀ k ∈ keys, k ∈ o.keySet) →
        rt_add s s keys = ⟨0, false, s⟩) ∧
    ((rt_add s s keys).ret = 0 →
      rt_add (rt_add s s keys).store (rt_add s s keys).store keys =
        ⟨0, false, (rt_add s s keys).store⟩) := by
  constructor
  · rintro o rfl hv hk
    exact rt_add_all_present o keys hv hk
  · intro hret
    match s with
    | none =>
        have h1 : rt_add none none keys =
            ⟨0, true, some ⟨1, keys.length % u32Mod, keys.toFinset, 1⟩⟩ := rfl
        rw [h1]
        exact rt_add_all_present _ keys rfl fun k hk => List.mem_toFinset.mpr hk
    | some o =>
        by_cases hv : o.ver = 1
        · rw [rt_add_v1_char o keys hv]
          by_cases h : (keys.filter fun k => decide (k ∉ o.keySet)).length = 0
          · simp only [if_pos h]
            refine rt_add_all_present o keys hv fun k hk => ?_
            by_contra hmem
            have hmf : k ∈ keys.filter fun k => decide (k ∉ o.keySet) :=
              List.mem_filter.mpr ⟨hk, by simpa using hmem⟩
            rw [List.length_eq_zero.mp h] at hmf
            exact absurd hmf (List.not_mem_nil k)
          · simp only [if_neg h]
            refine rt_add_all_present _ keys hv fun k hk => ?_
            by_cases hmem : k ∈ o.keySet
            · exact Finset.mem_union_left _ hmem
            · refine Finset.mem_union_right _ (List.mem_toFinset.mpr ?_)
              exact List.mem_filter.mpr ⟨hk, by simpa using hmem⟩
        · exfalso
          have h1 : rt_add (some o) (some o) keys = ⟨-1, false, some o⟩ :=
            rt_add_unknown_ver o keys hv
          rw [h1] at hret
          exact absurd hret (by decide : ¬(-1 : Int) = 0)

/-- Witness for C6: a no-op repeat on an object already tracking the key,
and a second Add right after a creating first Add, both leave the state
unchanged. -/
theorem rt_add_idempotent_witness :
    rt_add (some ⟨1, 1, {"a"}, 5⟩) (some ⟨1, 1, {"a"}, 5⟩) ["a"] =
      ⟨0, false, some ⟨1, 1, {"a"}, 5⟩⟩ ∧
    rt_add (rt_add none none ["a"]).store (rt_add none none ["a"]).store ["a"] =
      ⟨0, false, (rt_add none none ["a"]).store⟩ :=
  ⟨(rt_add_idempotent (some ⟨1, 1, {"a"}, 5⟩) ["a"]).1 ⟨1, 1, {"a"}, 5⟩ rfl rfl (by decide),
   (rt_add_idempotent none ["a"]).2 (by decide)⟩

/-- C7: Remove is idempotent.  If a sequential rt_remove call succeeds, then
repeating it against the resulting state performs no write and succeeds,
reporting deleted = true exactly when the object is now absent (NotFound is
success) and deleted = false when the object still exists but none of the
requested keys are present any more. -/
theorem rt_remove_idempotent (s : Option RTObject) (keys : List String)
    (h : (rt_remove s s keys).ret = 0) :
    rt_remove (rt_remove s s keys).store (rt_remove s s keys).store keys =
      ⟨0, (rt_remove s s keys).store.isNone, (rt_remove s s keys).store⟩ := by
  match s with
  | none => rfl
  | some o =>
    by_cases hv : o.ver = 1
    · by_cases hl : (keys.filter fun k => decide (k ∈ o.keySet)) = []
      · have hk : ∀ k ∈ keys, k ∉ o.keySet := by
          intro k hk hmem
          have hmf : k ∈ keys.filter fun k => decide (k ∈ o.keySet) :=
            List.mem_filter.mpr ⟨hk, by simpa using hmem⟩
          rw [hl] at hmf
          exact absurd hmf (List.not_mem_nil k)
        have h1 := rt_remove_none_present o keys hv hk
        rw [h1]
        exact h1
      · rw [rt_remove_v1_char o keys hv hl]
        by_cases hz : sub32 o.refcount (keys.filter fun k => decide (k ∈ o.keySet)).length = 0
        · simp only [if_pos hz]
          rfl
        · simp only [if_neg hz]
          refine rt_remove_none_present _ keys hv fun k hk hmem => ?_
          have hnot := (Finset.mem_sdiff.mp hmem).2
          exact hnot (List.mem_toFinset.mpr
            (List.mem_filter.mpr ⟨hk, by simpa using (Finset.mem_sdiff.mp hmem).1⟩))
    · exfalso
      have h1 : rt_remove (some o) (some o) keys = ⟨-1, false, some o⟩ :=
        rt_remove_unknown_ver o keys hv
      rw [h1] at h
      exact absurd h (by decide : ¬(-1 : Int) = 0)

/-- Witness for C7: removing the only key deletes the object; the repeated
Remove then reports deleted = true on the now-absent object without a
write. -/
theorem rt_remove_idempotent_witness :
    rt_remove (rt_remove (some ⟨1, 1, {"z"}, 2⟩) (some ⟨1, 1, {"z"}, 2⟩) ["z"]).store
        (rt_remove (some ⟨1, 1, {"z"}, 2⟩) (some ⟨1, 1, {"z"}, 2⟩) ["z"]).store ["z"] =
      ⟨0, (rt_remove (some ⟨1, 1, {"z"}, 2⟩) (some ⟨1, 1, {"z"}, 2⟩) ["z"]).store.isNone,
        (rt_remove (some ⟨1, 1, {"z"}, 2⟩) (some ⟨1, 1, {"z"}, 2⟩) ["z"]).store⟩ :=
  rt_remove_idempotent (some ⟨1, 1, {"z"}, 2⟩) ["z"] (by decide)

/-- Embeds tokenize (src/main.c lines 41-71).  The C loop repeatedly takes
the prefix up to the next occurrence of the delimiter as one token and
continues after it, then emits the remainder as the last token; this is the
same computation expressed structurally.  C strings are modelled as their
character lists (NUL-free, as C string contents are). -/
def tokenize (c : Char) : List Char → List (List Char)
  | [] => [[]]
  | x :: xs =>
    if x = c then [] :: tokenize c xs
    else
      match tokenize c xs with
      | [] => [[x]]
      | t :: ts => (x :: t) :: ts

/-- tokenize always returns at least one token; the C loop always appends
the last part, so token_count is at least 1. -/
lemma tokenize_ne_nil (c : Char) (s : List Char) : tokenize c s ≠ [] := by
  cases s with
  | nil => simp [tokenize]
  | cons x xs =>
    by_cases hx : x = c
    · simp [tokenize, hx]
    · cases h : tokenize c xs with
      | nil => simp [tokenize, hx, h]
      | cons t ts => simp [tokenize, hx, h]

/-- The number of tokens is one more than the number of delimiter
occurrences in the input. -/
lemma tokenize_length (c : Char) (s : List Char) :
    (tokenize c s).length = s.count c + 1 := by
  induction s with
  | nil => simp [tokenize]
  | cons x xs ih =>
    by_cases hx : x = c
    · simp [tokenize, hx, List.count_cons, ih]
    · obtain ⟨t, ts, h⟩ : ∃ t ts, tokenize c xs = t :: ts := by
        cases h : tokenize c xs with
        | nil => exact absurd h (tokenize_ne_nil c xs)
        | cons t ts => exact ⟨t, ts, rfl⟩
      rw [h] at ih
      simp [tokenize, hx, h, List.count_cons, ih]
      simpa using ih

/-- Interleaving a separator over a one-element token list is the token. -/
lemma intercalate_one {α : Type} (sep a : List α) :
    List.intercalate sep [a] = a := by
  simp [List.intercalate, List.intersperse]

/-- Interleaving a separator over a token list of two or more elements
splits off the head token followed by one separator copy. -/
lemma intercalate_cons_ne_nil {α : Type} (sep a : List α) (b : List (List α))
    (hb : b ≠ []) :
    List.intercalate sep (a :: b) = a ++ sep ++ List.intercalate sep b := by
  obtain ⟨x, xs, rfl⟩ := List.exists_cons_of_ne_nil hb
  simp [List.intercalate, List.intersperse, List.append_assoc]

/-- Joining the tokens back with the delimiter between them recovers the
input string: tokenize loses nothing and keeps tokens in input order. -/
lemma tokenize_intercalate (c : Char) (s : List Char) :
    List.intercalate [c] (tokenize c s) = s := by
  induction s with
  | nil => simp [tokenize, intercalate_one]
  | cons x xs ih =>
    by_cases hx : x = c
    · have e : tokenize c (x :: xs) = [] :: tokenize c xs := by
        simp [tokenize, hx]
      rw [e, intercalate_cons_ne_nil [c] [] _ (tokenize_ne_nil c xs), ih]
      simp [hx]
    · obtain ⟨t, ts, h⟩ : ∃ t ts, tokenize c xs = t :: ts := by
        cases h : tokenize c xs with
        | nil => exact absurd h (tokenize_ne_nil c xs)
        | cons t ts => exact ⟨t, ts, rfl⟩
      have e : tokenize c (x :: xs) = (x :: t) :: ts := by
        simp [tokenize, hx, h]
      rw [h] at ih
      cases ts with
      | nil => rw [e, intercalate_one, ← ih, intercalate_one]
      | cons u us =>
        rw [e, intercalate_cons_ne_nil [c] (x :: t) _ (by simp),
          ← ih, intercalate_cons_ne_nil [c] t _ (by simp)]
        simp

/-- C10: tokenize(s, c) produces exactly count(c, s) + 1 tokens, in input
order, whose concatenation interleaved with the delimiter reconstructs the
input; the token count is therefore always at least 1, the empty input
yielding the single empty token, and empty segments between delimiters are
kept as empty-string keys in the output array handed to the engine. -/
theorem tokenize_spec (s : List Char) (c : Char) :
    (tokenize c s).length = s.count c + 1 ∧
    List.intercalate [c] (tokenize c s) = s ∧
    tokenize c s ≠ [] ∧
    tokenize c ([] : List Char) = [[]] :=
  ⟨tokenize_length c s, tokenize_intercalate c s, tokenize_ne_nil c s, rfl⟩
